import Mathlib

/-!
# Sous reconciliation core: deployments, equality, identity, resolve

A shallow embedding of `lib/deployment.go` and `lib/resolve.go`, together with
models of the differ and of the HTTP state manager, and the properties the
specification states about them.

Go maps are represented by lists (the keys, or the values, in iteration
order); a Go `error` result is an `Option` (`none` is `nil`); a Go
`(value, error)` pair whose value is only used when the error is `nil` is an
`Except`.
-/

namespace Sous

/-! ## Data model (`lib/deployment.go`, lines 10-65) -/

/-- The type `semv.Version` of the external semantic-version library; only the
identity of a version matters here, so it is kept as its text. -/
abbrev Version := String

/-- The type `SourceLocation`: `Repo` and `Dir` are the two fields that
`Deployment.Tabbed` reads. -/
structure SourceLocation where
  Repo : String
  Dir : String
  deriving DecidableEq, Repr

/-- The type `SourceID`: `Location` and `Version` are the fields read in
`lib/deployment.go`. -/
structure SourceID where
  Location : SourceLocation
  Version : Version
  deriving DecidableEq, Repr

/-- The type `ManifestID`, as built by `Deployment.ManifestID`. -/
structure ManifestID where
  Source : SourceLocation
  Flavor : String
  deriving DecidableEq, Repr

/-- A DeployID identifies a deployment. -/
structure DeployID where
  ManifestID : ManifestID
  Cluster : String
  deriving DecidableEq, Repr

/-- The type `OwnerSet`, a Go map used as a set of owner names: the list of
its keys in iteration order. -/
abbrev OwnerSet := List String

/-- The type `ManifestKind`, a string-like tag. -/
abbrev ManifestKind := String

/-- The type `Volumes`; a volume mapping is kept as its text. -/
abbrev Volumes := List String

/-- The type `DeployConfig`: instance count, environment, resources and
volumes (the fields set in `makeDepl` of the differ test, and the volume list
of the data model). -/
structure DeployConfig where
  NumInstances : Int
  Env : List (String × String)
  Resources : List (String × String)
  Volumes : Volumes
  deriving DecidableEq, Repr

/-- An Annotation stores notes about data available from the source of a
Deployment; it does not take part in equality checks. -/
structure Annotation where
  RequestID : String
  deriving DecidableEq, Repr

/-- Deployment is a completely configured deployment of a piece of software.
`Cluster` is the Go pointer `*Cluster`, kept as the optional name of the
cluster it points to. -/
structure Deployment where
  DeployConfig : DeployConfig
  ClusterName : String
  Cluster : Option String
  SourceID : SourceID
  Flavor : String
  Owners : OwnerSet
  Kind : ManifestKind
  Volumes : Volumes
  Annotation : Annotation
  deriving DecidableEq, Repr

/-! ## Identity (`lib/deployment.go`, lines 71-85 and 137-140) -/

/-- ManifestID returns the ID of the Manifest describing this deployment. -/
def Deployment.ManifestID (d : Deployment) : Sous.ManifestID :=
  { Source := d.SourceID.Location, Flavor := d.Flavor }

/-- ID returns the DeployID of this deployment. -/
def Deployment.ID (d : Deployment) : DeployID :=
  { ManifestID := d.ManifestID, Cluster := d.ClusterName }

/-- Name returns the DeployID. -/
def Deployment.Name (d : Deployment) : DeployID :=
  d.ID

/-! ## Equality (`lib/deployment.go`, lines 142-156) -/

/-- The loop `for ownr := range d.Owners` of `Deployment.Equal`: `false` is the
early `return false` taken at the first owner that `o.Owners` does not have,
`true` is falling out of the loop. -/
def ownersLoop : List String → OwnerSet → Bool
  | [], _ => true
  | ownr :: rest, oOwners =>
    if !(oOwners.contains ownr) then false else ownersLoop rest oOwners

/-- Equal returns true if two Deployments are equal. `sidEqual` and `dcEqual`
stand for `SourceID.Equal` and `DeployConfig.Equal`, whose source files are
missing from the sources. The two logging calls have no effect on the
result. -/
def Deployment.Equal (sidEqual : Sous.SourceID → Sous.SourceID → Bool)
    (dcEqual : Sous.DeployConfig → Sous.DeployConfig → Bool) (d o : Deployment) : Bool :=
  if d.ClusterName != o.ClusterName || !(sidEqual d.SourceID o.SourceID)
      || d.Flavor != o.Flavor || d.Kind != o.Kind then
    false
  else if !(ownersLoop d.Owners o.Owners) then
    false
  else
    dcEqual d.DeployConfig o.DeployConfig

/-- Modelled from the spec: `SourceID.Equal` (its source file is missing from
the sources). "Two SourceIDs are equal iff location and version are equal." -/
def SourceID.Equal (x y : SourceID) : Bool :=
  decide (x.Location = y.Location) && decide (x.Version = y.Version)

/-- Equality of two Go maps given by their entries: every entry of each is an
entry of the other, whatever the order of iteration. -/
def mapEqual (x y : List (String × String)) : Bool :=
  x.all (fun p => y.contains p) && y.all (fun p => x.contains p)

/-- Modelled from the spec: `DeployConfig.Equal` (its source file is missing
from the sources). "Instance count, environment-variable mapping (key unique,
order irrelevant), resource-request mapping (key unique), and volume-mount
list. Structural equality required for diff purposes." -/
def DeployConfig.Equal (x y : DeployConfig) : Bool :=
  decide (x.NumInstances = y.NumInstances) && mapEqual x.Env y.Env &&
    mapEqual x.Resources y.Resources && decide (x.Volumes = y.Volumes)

/-! ## Sample values (after `makeDepl` in `lib/deployment_diff_test.go`) -/

/-- The deployment built by `makeDepl repo num`, with the owner set passed
explicitly (`makeDepl` itself uses the single owner "judson"). -/
def makeDeplOwned (repo : String) (num : Int) (owners : OwnerSet) : Deployment :=
  { DeployConfig :=
      { NumInstances := num, Env := [],
        Resources := [("cpu", ".1"), ("memory", "100"), ("ports", "1")],
        Volumes := [] },
    ClusterName := "",
    Cluster := none,
    SourceID := { Location := { Repo := repo, Dir := "" }, Version := "1.1.1-latest" },
    Flavor := "",
    Owners := owners,
    Kind := "",
    Volumes := [],
    Annotation := { RequestID := "" } }

/-- The function `makeDepl` of the differ test. -/
def makeDepl (repo : String) (num : Int) : Deployment :=
  makeDeplOwned repo num ["judson"]

/-! ## The collection `Deployments` and the differ -/

/-- The type `Deployments`, a collection keyed by `DeployID` (generated from
`cmap.CMap`, see the `go:generate` line of `lib/deployment.go`): the list of its
values in iteration order. -/
abbrev Deployments := List Deployment

/-- The keys of a collection: the `DeployID` of each of its values. -/
def Deployments.Keys (ds : Deployments) : List DeployID :=
  ds.map Deployment.ID

/-- The data-model invariant "no two Deployment values in a correctly-built
collection share a DeployID". -/
def Deployments.WellKeyed (ds : Deployments) : Prop :=
  ds.Keys.Nodup

instance (ds : Deployments) : Decidable ds.WellKeyed :=
  inferInstanceAs (Decidable (List.Nodup _))

/-- The value stored under a key, if any. -/
def Deployments.Get (ds : Deployments) (id : DeployID) : Option Deployment :=
  ds.find? (fun d => decide (d.ID = id))

/-- Whether a key is present. -/
def Deployments.Has (ds : Deployments) (id : DeployID) : Bool :=
  (ds.Get id).isSome

/-- The type `DeploymentPair` of the differ: the fields `name`, `Prior` and
`Post` read by `TestRealDiff`. -/
structure DeploymentPair where
  name : DeployID
  Prior : Deployment
  Post : Deployment
  deriving DecidableEq, Repr

/-- The collected result of a diff: the fields `New`, `Gone`, `Same` and
`Changed` read by `TestEmptyDiff` and `TestRealDiff`. -/
structure DiffResult where
  New : Deployments
  Gone : Deployments
  Same : Deployments
  Changed : List DeploymentPair
  deriving DecidableEq, Repr

/-- Modelled from the spec: `Deployments.Diff` followed by `collect` (the differ's
source file is missing from the sources). `existing` is the receiver,
`intended` the argument, as in `ads.Diff(gdm)` of `Resolve`.
"New: key present only in intended. Gone: key present only in existing.
Same: key present in both, and Deployment.Equal holds. Changed: key present in
both, and Deployment.Equal does not hold; the result carries both the prior
(existing) and post (intended) values plus the shared DeployID."
`Equal` is called on the existing value with the intended one as argument, and
`Same` holds the existing value. -/
def Diff (sidEqual : SourceID → SourceID → Bool)
    (dcEqual : DeployConfig → DeployConfig → Bool)
    (existing intended : Deployments) : DiffResult :=
  { New := intended.filter (fun d => !(existing.Has d.ID)),
    Gone := existing.filter (fun d => !(intended.Has d.ID)),
    Same := existing.filter (fun d =>
      match intended.Get d.ID with
      | some o => d.Equal sidEqual dcEqual o
      | none => false),
    Changed := existing.filterMap (fun d =>
      match intended.Get d.ID with
      | some o =>
        if d.Equal sidEqual dcEqual o then none
        else some { name := d.ID, Prior := d, Post := o }
      | none => none) }

/-- The keys held by the four buckets of a diff result, bucket after bucket. -/
def DiffResult.Keys (r : DiffResult) : List DeployID :=
  r.New.Keys ++ r.Gone.Keys ++ r.Same.Keys ++ r.Changed.map DeploymentPair.name

/-! ## Resolve (`lib/resolve.go`) -/

/-- MissingImageNamesError reports that we couldn't get names for one or more
source versions. `E` is the type of the errors that collaborators return. -/
structure MissingImageNamesError (E : Type) where
  Causes : List E
  deriving DecidableEq, Repr

/-- A non-nil Go `error` as `Resolve` can return it: an error handed back by a
collaborator, or the aggregate built by `guardImageNamesKnown`. -/
inductive ResolveError (E : Type) where
  | collaborator (e : E)
  | missingImageNames (m : MissingImageNamesError E)
  deriving DecidableEq, Repr

/-- One call made by `Resolve` or `guardImageNamesKnown`, with what it returned. -/
inductive Event (E R : Type) where
  | deployments (res : Except E Deployments)
  | imageName (d : Deployment) (err : Option E)
  | getRunningDeploymentSet (urls : List String) (res : Except E Deployments)
  | diff (ads gdm : Deployments)
  | rectify (differ : DiffResult)
  | logPrintf (err : R)

/-- The state a pass runs in: the state `st` of the outside world (store,
clusters, client) and the calls made so far, oldest first. -/
structure World (σ E R : Type) where
  st : σ
  trace : List (Event E R)

/-- The collaborators of `Resolve`, whose source files are missing from the
sources, each a function of the outside state: `config.Deployments()`,
`config.BaseURLs()`, `rc.ImageName(d)` (the returned name and error),
`GetRunningDeploymentSet(urls)`, and `Rectify(differ, errs, rc)`, which yields
the `RectificationError`s (type `R`) received from `errs` until it is closed. -/
structure Collaborators (σ E R : Type) where
  Deployments : σ → Except E Sous.Deployments × σ
  BaseURLs : σ → List String
  ImageName : Deployment → σ → (String × Option E) × σ
  GetRunningDeploymentSet : List String → σ → Except E Sous.Deployments × σ
  Rectify : DiffResult → σ → List R × σ

/-- The loop `for _, d := range gdm` of `guardImageNamesKnown`, with `es` the
slice of errors collected so far. -/
def guardLoop {σ E R : Type} (c : Collaborators σ E R) :
    List Deployment → List E → World σ E R → List E × World σ E R
  | [], es, w => (es, w)
  | d :: rest, es, w =>
    let r := c.ImageName d w.st
    let w1 : World σ E R := { st := r.2, trace := w.trace ++ [Event.imageName d r.1.2] }
    match r.1.2 with
    | some err => guardLoop c rest (es ++ [err]) w1
    | none => guardLoop c rest es w1

/-- The function `guardImageNamesKnown`. -/
def guardImageNamesKnown {σ E R : Type} (c : Collaborators σ E R) (gdm : Deployments)
    (w : World σ E R) : Option (ResolveError E) × World σ E R :=
  let r := guardLoop c gdm [] w
  if r.1.length > 0 then
    (some (ResolveError.missingImageNames { Causes := r.1 }), r.2)
  else
    (none, r.2)

/-- The call `config.Deployments()`, recorded. -/
def callDeployments {σ E R : Type} (c : Collaborators σ E R) (w : World σ E R) :
    Except E Deployments × World σ E R :=
  let r := c.Deployments w.st
  (r.1, { st := r.2, trace := w.trace ++ [Event.deployments r.1] })

/-- The call `GetRunningDeploymentSet(config.BaseURLs())`, recorded. -/
def callGetRunningDeploymentSet {σ E R : Type} (c : Collaborators σ E R)
    (w : World σ E R) : Except E Deployments × World σ E R :=
  let urls := c.BaseURLs w.st
  let r := c.GetRunningDeploymentSet urls w.st
  (r.1, { st := r.2, trace := w.trace ++ [Event.getRunningDeploymentSet urls r.1] })

/-- The loop `for err := range errs` of `Resolve`: one `log.Printf` per error
received. -/
def drain {σ E R : Type} : List R → World σ E R → World σ E R
  | [], w => w
  | err :: rest, w => drain rest { w with trace := w.trace ++ [Event.logPrintf err] }

/-- Resolve drives the Sous deployment resolution process. The differ is
`ads.Diff(gdm)`: the running set is the receiver, the intended set the
argument. -/
def Resolve {σ E R : Type} (sidEqual : SourceID → SourceID → Bool)
    (dcEqual : DeployConfig → DeployConfig → Bool) (c : Collaborators σ E R)
    (w : World σ E R) : Option (ResolveError E) × World σ E R :=
  match callDeployments c w with
  | (Except.error err, w1) => (some (ResolveError.collaborator err), w1)
  | (Except.ok gdm, w1) =>
    match guardImageNamesKnown c gdm w1 with
    | (some err, w2) => (some err, w2)
    | (none, w2) =>
      match callGetRunningDeploymentSet c w2 with
      | (Except.error err, w3) => (some (ResolveError.collaborator err), w3)
      | (Except.ok ads, w3) =>
        let differ := Diff sidEqual dcEqual ads gdm
        let w4 : World σ E R := { w3 with trace := w3.trace ++ [Event.diff ads gdm] }
        let r := c.Rectify differ w4.st
        let w5 : World σ E R := { st := r.2, trace := w4.trace ++ [Event.rectify differ] }
        (none, drain r.1 w5)

/-- Whether an event is a call that `Resolve` makes after the image-name guard:
the live-state fetch, the diff, the rectification, or the report of one of its
errors. -/
def Event.afterGuard {E R : Type} : Event E R → Bool
  | Event.deployments _ => false
  | Event.imageName _ _ => false
  | Event.getRunningDeploymentSet _ _ => true
  | Event.diff _ _ => true
  | Event.rectify _ => true
  | Event.logPrintf _ => true

/-- The errors returned by `rc.ImageName` when it is called on each deployment
of `gdm` in turn, starting from the outside state `s` (`none` is a `nil`
error). -/
def imageNameErrors {σ E R : Type} (c : Collaborators σ E R) :
    List Deployment → σ → List (Option E)
  | [], _ => []
  | d :: rest, s => (c.ImageName d s).1.2 :: imageNameErrors c rest (c.ImageName d s).2

/-- The outside state left by calling `rc.ImageName` on each deployment of `gdm`
in turn. -/
def imageNameState {σ E R : Type} (c : Collaborators σ E R) : List Deployment → σ → σ
  | [], s => s
  | d :: rest, s => imageNameState c rest (c.ImageName d s).2

/-- A sample pass: two intended deployments, a client that knows no image for
the repository "one", one running deployment, and a rectifier that reports one
failure. The outside state counts the calls made. -/
def sampleCollaborators : Collaborators Nat String String :=
  { Deployments := fun s => (Except.ok [makeDepl "one" 1, makeDepl "two" 1], s + 1),
    BaseURLs := fun _ => ["http://cluster.example"],
    ImageName := fun d s =>
      (if d.SourceID.Location.Repo = "one" then ("", some "no image for one")
       else ("image-two", none), s + 1),
    GetRunningDeploymentSet := fun _ s => (Except.ok [makeDepl "two" 1], s + 1),
    Rectify := fun _ s => (["create failed"], s + 1) }

/-- The collections of `TestRealDiff`: `realDiffReceiver` is the collection the
test calls `Diff` on, `realDiffArgument` the one it passes. -/
def realDiffReceiver : Deployments :=
  [makeDepl "one" 1, makeDepl "two" 1, makeDepl "three" 2]

/-- The collection passed to `Diff` in `TestRealDiff`. -/
def realDiffArgument : Deployments :=
  [makeDepl "two" 1, makeDepl "three" 1, makeDepl "four" 1]

/-! ## The HTTP state manager (`lib/http_state_manager_test.go`) -/

/-- DeploySpec is the interface to describe a cluster-wide deployment of an
application described by a Manifest (`lib/deploy_spec.go`). -/
structure DeploySpec where
  DeployConfig : DeployConfig
  Version : Version
  clusterName : String
  deriving DecidableEq, Repr

/-- Equal returns true if other equals spec (`lib/deploy_spec.go`); `dcEqual`
stands for `DeployConfig.Equal`. -/
def DeploySpec.Equal (dcEqual : Sous.DeployConfig → Sous.DeployConfig → Bool)
    (spec other : DeploySpec) : Bool :=
  decide (spec.Version = other.Version) && dcEqual spec.DeployConfig other.DeployConfig

/-- Modelled from the spec: the type `Manifest` (its declaration is missing from
the sources). "User-authored root document, identified by ManifestID,
containing a mapping from cluster name to DeploySpec, an owner set, and a
deployment Kind." -/
structure Manifest where
  Source : SourceLocation
  Flavor : String
  Owners : OwnerSet
  Kind : ManifestKind
  Deployments : List (String × DeploySpec)
  deriving DecidableEq, Repr

/-- The identity of a manifest: its source location and flavor. -/
def Manifest.ID (m : Manifest) : ManifestID :=
  { Source := m.Source, Flavor := m.Flavor }

/-- The type `ManifestPair`: the fields `Prior` and `Post` set by `TestModify`. -/
structure ManifestPair where
  Prior : Manifest
  Post : Manifest
  deriving DecidableEq, Repr

/-- An HTTP request as the handlers of the state-manager tests read it: the
method, the headers and the body, and the resource it addresses ("one resource
per ManifestID"). -/
structure Request where
  Method : String
  Resource : ManifestID
  Header : List (String × String)
  Body : String
  deriving DecidableEq, Repr

/-- An HTTP response as the handlers of the state-manager tests write it. -/
structure Response where
  StatusCode : Nat
  Header : List (String × String)
  Body : String
  deriving DecidableEq, Repr

/-- The method `Header.Get` of `net/http`: the first value stored under the
header name, or the empty string. Header names are matched without regard to
case, since `net/http` brings every name to its canonical form before storing
or looking it up. -/
def headerGet (h : List (String × String)) (key : String) : String :=
  match h.find? (fun p => p.1.toLower == key.toLower) with
  | some p => p.2
  | none => ""

/-- The JSON text of a list of already rendered items, between the given
brackets and separated by commas. -/
def jsonJoin (opening closing : String) (items : List String) : String :=
  opening ++ ",".intercalate items ++ closing

/-- The JSON text of a string-to-string object. -/
def jsonStringMap (m : List (String × String)) : String :=
  jsonJoin "\x7b" "\x7d" (m.map (fun p => p.1.quote ++ ":" ++ p.2.quote))

/-- The JSON text of a `DeploySpec`. -/
def DeploySpec.json (spec : DeploySpec) : String :=
  jsonJoin "\x7b" "\x7d"
    ["\"NumInstances\":" ++ toString spec.DeployConfig.NumInstances,
     "\"Env\":" ++ jsonStringMap spec.DeployConfig.Env,
     "\"Resources\":" ++ jsonStringMap spec.DeployConfig.Resources,
     "\"Volumes\":" ++ jsonJoin "[" "]" (spec.DeployConfig.Volumes.map String.quote),
     "\"Version\":" ++ spec.Version.quote]

/-- Modelled from the spec: the serialization of a manifest sent as a request
body (the state manager's source file is missing from the sources). "Bodies:
create/modify send the serialized Manifest": the manifest as one JSON object
holding its source location, flavor, owners, kind and per-cluster deploy
specs. -/
def Manifest.serialize (m : Manifest) : String :=
  jsonJoin "\x7b" "\x7d"
    ["\"Source\":" ++ jsonJoin "\x7b" "\x7d"
        ["\"Repo\":" ++ m.Source.Repo.quote, "\"Dir\":" ++ m.Source.Dir.quote],
     "\"Flavor\":" ++ m.Flavor.quote,
     "\"Owners\":" ++ jsonJoin "[" "]" (m.Owners.map String.quote),
     "\"Kind\":" ++ m.Kind.quote,
     "\"Deployments\":" ++ jsonJoin "\x7b" "\x7d"
        (m.Deployments.map (fun p => p.1.quote ++ ":" ++ p.2.json))]

/-- The remote store behind a state manager: how it answers a request in a
given state. -/
structure HTTPStateManager (σ : Type) where
  Do : Request → σ → Response × σ

/-- The state of the store and the requests sent to it so far, oldest first. -/
structure Exchange (σ : Type) where
  st : σ
  sent : List Request

/-- The failures of the state manager: a tag fetch that is not answered with a
2xx status, and a conditional request that is not ("any non-2xx"). -/
inductive StateManagerError where
  | readFailed (status : Nat)
  | conflict (status : Nat)
  deriving DecidableEq, Repr

/-- One round trip to the store, recorded. -/
def HTTPStateManager.roundTrip {σ : Type} (hsm : HTTPStateManager σ) (req : Request)
    (x : Exchange σ) : Response × Exchange σ :=
  let r := hsm.Do req x.st
  (r.1, { st := r.2, sent := x.sent ++ [req] })

/-- Whether a response is a success: a 2xx status. -/
def Response.success (resp : Response) : Bool :=
  decide (200 ≤ resp.StatusCode) && decide (resp.StatusCode < 300)

/-- The outcome of a conditional request: success is 2xx. -/
def conflictOf (resp : Response) : Option StateManagerError :=
  if resp.success then none
  else some (StateManagerError.conflict resp.StatusCode)

/-- Modelled from the spec: `HTTPStateManager.create` (the state manager's source
file is missing from the sources). "Issue a conditional write that succeeds
only if no document currently exists at the manifest's identity": a PUT with
`If-None-Match: *` whose body is the serialized manifest. -/
def HTTPStateManager.create {σ : Type} (hsm : HTTPStateManager σ) (m : Manifest)
    (x : Exchange σ) : Option StateManagerError × Exchange σ :=
  let r := hsm.roundTrip
    { Method := "PUT", Resource := m.ID, Header := [("If-None-Match", "*")],
      Body := m.serialize } x
  (conflictOf r.1, r.2)

/-- The request of a tag fetch: a GET on the manifest's resource, with no header
and an empty body ("read (tag fetch): GET"; "delete sends an empty body; read
returns the serialized Manifest plus an ETag response header"). -/
def tagFetchRequest (m : Manifest) : Request :=
  { Method := "GET", Resource := m.ID, Header := [], Body := "" }

/-- Modelled from the spec: the tag fetch of the state manager (its source file is
missing from the sources). "read (tag fetch): GET; success 2xx, response
carries ETag": a GET with no header and an empty body; on a 2xx answer the
result is the `Etag` header of the reply, otherwise the read has failed and
there is no tag. -/
def HTTPStateManager.getManifestEtag {σ : Type} (hsm : HTTPStateManager σ)
    (m : Manifest) (x : Exchange σ) : Except StateManagerError String × Exchange σ :=
  let r := hsm.roundTrip (tagFetchRequest m) x
  if r.1.success then (Except.ok (headerGet r.1.Header "Etag"), r.2)
  else (Except.error (StateManagerError.readFailed r.1.StatusCode), r.2)

/-- Modelled from the spec: `HTTPStateManager.del` (its source file is missing
from the sources). "First read the current document to obtain its current
version tag, then issue a conditional delete keyed to that tag": a DELETE with
`If-Match: <etag>` and an empty body, sent once the tag has been obtained. -/
def HTTPStateManager.del {σ : Type} (hsm : HTTPStateManager σ) (m : Manifest)
    (x : Exchange σ) : Option StateManagerError × Exchange σ :=
  match hsm.getManifestEtag m x with
  | (Except.error err, x1) => (some err, x1)
  | (Except.ok etag, x1) =>
    let r := hsm.roundTrip
      { Method := "DELETE", Resource := m.ID, Header := [("If-Match", etag)], Body := "" } x1
    (conflictOf r.1, r.2)

/-- Modelled from the spec: `HTTPStateManager.modify` (its source file is
missing from the sources). "Given a {Prior, Post} manifest pair, read the
current remote document's version tag, then issue a conditional write of Post
keyed to that tag": a PUT with `If-Match: <etag>` whose body is the serialized
`Post`, sent once the tag has been obtained. -/
def HTTPStateManager.modify {σ : Type} (hsm : HTTPStateManager σ) (mp : ManifestPair)
    (x : Exchange σ) : Option StateManagerError × Exchange σ :=
  match hsm.getManifestEtag mp.Prior x with
  | (Except.error err, x1) => (some err, x1)
  | (Except.ok etag, x1) =>
    let r := hsm.roundTrip
      { Method := "PUT", Resource := mp.Post.ID, Header := [("If-Match", etag)],
        Body := mp.Post.serialize } x1
    (conflictOf r.1, r.2)

/-- A sample store: it answers every request with status 200 and the tag
"w/sauce" (the handler of `TestDelete` and `TestModify`), and counts the
requests it has served. -/
def sampleStateManager : HTTPStateManager Nat :=
  { Do := fun _ s => ({ StatusCode := 200, Header := [("Etag", "w/sauce")], Body := "" }, s + 1) }

/-- The manifest `&Manifest{}` of the state-manager tests. -/
def emptyManifest : Manifest :=
  { Source := { Repo := "", Dir := "" }, Flavor := "", Owners := [], Kind := "",
    Deployments := [] }

/-! ## Lemmas on equality -/

theorem ownersLoop_iff (ds os : List String) :
    ownersLoop ds os = true ↔ ∀ x ∈ ds, x ∈ os := by
  induction ds with
  | nil => simp [ownersLoop]
  | cons a rest ih =>
    by_cases h : a ∈ os
    · simp [ownersLoop, h, ih]
    · simp [ownersLoop, h]

theorem mapEqual_refl (x : List (String × String)) : mapEqual x x = true := by
  simp [mapEqual, List.all_eq_true]

theorem DeployConfig.Equal_refl (x : DeployConfig) : x.Equal x = true := by
  simp [DeployConfig.Equal, mapEqual_refl]

/-- What `Deployment.Equal` computes: the four scalar comparisons, the inclusion
of the receiver's owners in the argument's owners, and `DeployConfig.Equal`. -/
theorem Equal_iff (sidEqual : SourceID → SourceID → Bool)
    (dcEqual : DeployConfig → DeployConfig → Bool) (d o : Deployment) :
    d.Equal sidEqual dcEqual o = true ↔
      (d.ClusterName = o.ClusterName ∧ sidEqual d.SourceID o.SourceID = true ∧
        d.Flavor = o.Flavor ∧ d.Kind = o.Kind ∧ (∀ x ∈ d.Owners, x ∈ o.Owners) ∧
        dcEqual d.DeployConfig o.DeployConfig = true) := by
  unfold Deployment.Equal
  by_cases h1 : d.ClusterName = o.ClusterName
  · by_cases h2 : sidEqual d.SourceID o.SourceID = true
    · by_cases h3 : d.Flavor = o.Flavor
      · by_cases h4 : d.Kind = o.Kind
        · by_cases h5 : ownersLoop d.Owners o.Owners = true
          · have h5' := (ownersLoop_iff _ _).1 h5
            simp [h1, h2, h3, h4, h5]
            intro _
            exact h5'
          · have h5' : ¬ ∀ x ∈ d.Owners, x ∈ o.Owners := fun h => h5 ((ownersLoop_iff _ _).2 h)
            simp [h1, h2, h3, h4, h5]
            intro hx
            exact absurd hx h5'
        · simp [h1, h2, h3, h4]
      · simp [h1, h2, h3]
    · simp [h1, h2]
  · simp [h1]


/-! ## Deployment equality and identity -/

/-- C1 (defect in the code): `Deployment.Equal` does not compare the owner sets
for equality, it only checks that every owner of the receiver is an owner of
the argument. A deployment with no owner is `Equal` to the same deployment owned
by "judson", although their owner sets differ and every other compared field
agrees; called the other way round, `Equal` answers `false`. -/
theorem Equal_accepts_smaller_owner_set :
    (makeDeplOwned "one" 1 []).Equal SourceID.Equal DeployConfig.Equal
        (makeDeplOwned "one" 1 ["judson"]) = true ∧
      ¬ (∀ x, x ∈ (makeDeplOwned "one" 1 []).Owners ↔
          x ∈ (makeDeplOwned "one" 1 ["judson"]).Owners) ∧
      (makeDeplOwned "one" 1 ["judson"]).Equal SourceID.Equal DeployConfig.Equal
        (makeDeplOwned "one" 1 []) = false := by
  refine ⟨by decide, ?_, by decide⟩
  intro h
  have := (h "judson").2 (by simp [makeDeplOwned])
  simp [makeDeplOwned] at this

/-- C3: `d.ID()` is the DeployID made of the manifest id (source location and
flavor) and the cluster name, `d.Name()` is `d.ID()`, and two deployments have
the same DeployID exactly when they agree on source location, flavor and
cluster name. -/
theorem ID_eq_and_Name_eq (d o : Deployment) :
    d.ID = { ManifestID := { Source := d.SourceID.Location, Flavor := d.Flavor },
             Cluster := d.ClusterName } ∧
      d.Name = d.ID ∧
      (d.ID = o.ID ↔ (d.SourceID.Location = o.SourceID.Location ∧ d.Flavor = o.Flavor ∧
        d.ClusterName = o.ClusterName)) := by
  refine ⟨rfl, rfl, ?_⟩
  simp only [Deployment.ID, Deployment.ManifestID, DeployID.mk.injEq, ManifestID.mk.injEq]
  tauto

/-- C10: equality is consistent with identity. If `SourceID.Equal x y` implies
that `x` and `y` have the same location, then `d.Equal(o)` implies
`d.ID() = o.ID()`, so deployments with different DeployIDs are never `Equal`. -/
theorem Equal_imp_ID_eq (sidEqual : SourceID → SourceID → Bool)
    (dcEqual : DeployConfig → DeployConfig → Bool)
    (hloc : ∀ x y, sidEqual x y = true → x.Location = y.Location) (d o : Deployment) :
    (d.Equal sidEqual dcEqual o = true → d.ID = o.ID) ∧
      (d.ID ≠ o.ID → d.Equal sidEqual dcEqual o = false) := by
  have key : d.Equal sidEqual dcEqual o = true → d.ID = o.ID := by
    intro h
    obtain ⟨hc, hs, hf, -⟩ := (Equal_iff _ _ _ _).1 h
    simp only [Deployment.ID, Deployment.ManifestID, hloc _ _ hs, hf, hc]
  refine ⟨key, fun hne => ?_⟩
  cases h : d.Equal sidEqual dcEqual o
  · rfl
  · exact absurd (key h) hne

/-- Witness of C10: `makeDepl "three" 1` without owner against the same
deployment owned by "judson", under the structural `SourceID.Equal`: the first is
`Equal` to the second, hence the two DeployIDs agree. -/
theorem Equal_imp_ID_eq_witness :
    (makeDeplOwned "three" 1 []).Equal SourceID.Equal DeployConfig.Equal
        (makeDepl "three" 1) = true ∧
      (makeDeplOwned "three" 1 []).ID = (makeDepl "three" 1).ID :=
  ⟨by decide,
   (Equal_imp_ID_eq SourceID.Equal DeployConfig.Equal
      (fun x y h => by simp [SourceID.Equal] at h; exact h.1)
      (makeDeplOwned "three" 1 []) (makeDepl "three" 1)).1 (by decide)⟩

/-! ## The image-name guard and Resolve -/

theorem imageNameErrors_length {σ E R : Type} (c : Collaborators σ E R)
    (gdm : List Deployment) (s : σ) : (imageNameErrors c gdm s).length = gdm.length := by
  induction gdm generalizing s with
  | nil => rfl
  | cons d rest ih => simp [imageNameErrors, ih]

theorem guardLoop_eq {σ E R : Type} (c : Collaborators σ E R) (gdm : List Deployment)
    (es : List E) (w : World σ E R) :
    guardLoop c gdm es w =
      (es ++ (imageNameErrors c gdm w.st).reduceOption,
       { st := imageNameState c gdm w.st,
         trace := w.trace ++ List.zipWith Event.imageName gdm (imageNameErrors c gdm w.st) }) := by
  induction gdm generalizing es w with
  | nil => simp [guardLoop, imageNameErrors, imageNameState]
  | cons d rest ih =>
    simp only [guardLoop, imageNameErrors, imageNameState]
    cases h : (c.ImageName d w.st).1.2 with
    | none => simp [ih, List.reduceOption_cons_of_none]
    | some e => simp [ih, List.reduceOption_cons_of_some]

theorem reduceOption_eq_nil_iff {α : Type} (l : List (Option α)) :
    l.reduceOption = [] ↔ ∀ x ∈ l, x = none := by
  induction l with
  | nil => simp
  | cons a rest ih =>
    cases a with
    | none => simp [List.reduceOption_cons_of_none, ih]
    | some v => simp [List.reduceOption_cons_of_some]

theorem guardImageNamesKnown_eq {σ E R : Type} (c : Collaborators σ E R)
    (gdm : Deployments) (w : World σ E R) :
    guardImageNamesKnown c gdm w =
      (if (imageNameErrors c gdm w.st).reduceOption.length > 0 then
         some (ResolveError.missingImageNames
           { Causes := (imageNameErrors c gdm w.st).reduceOption })
       else none,
       { st := imageNameState c gdm w.st,
         trace := w.trace ++ List.zipWith Event.imageName gdm (imageNameErrors c gdm w.st) }) := by
  unfold guardImageNamesKnown
  rw [guardLoop_eq]
  simp only [List.nil_append]
  split <;> rfl

/-- C4: `guardImageNamesKnown` calls `rc.ImageName` on every deployment of `gdm`,
in iteration order and without stopping at a failure (its calls are one per
deployment, each recorded with the error it returned); it returns nil exactly
when no call fails, and otherwise one `MissingImageNamesError` whose `Causes` are
the errors of the failing calls, in iteration order. -/
theorem guardImageNamesKnown_collects {σ E R : Type} (c : Collaborators σ E R)
    (gdm : Deployments) (w : World σ E R) :
    (imageNameErrors c gdm w.st).length = gdm.length ∧
      (guardImageNamesKnown c gdm w).2.trace =
        w.trace ++ List.zipWith Event.imageName gdm (imageNameErrors c gdm w.st) ∧
      ((guardImageNamesKnown c gdm w).1 = none ↔
        ∀ x ∈ imageNameErrors c gdm w.st, x = none) ∧
      ((guardImageNamesKnown c gdm w).1 ≠ none ↔
        (guardImageNamesKnown c gdm w).1 = some (ResolveError.missingImageNames
          { Causes := (imageNameErrors c gdm w.st).reduceOption })) := by
  rw [guardImageNamesKnown_eq]
  refine ⟨imageNameErrors_length c gdm w.st, rfl, ?_, ?_⟩
  · rw [← reduceOption_eq_nil_iff]
    cases h : (imageNameErrors c gdm w.st).reduceOption <;> simp
  · cases h : (imageNameErrors c gdm w.st).reduceOption <;> simp

theorem drain_eq {σ E R : Type} (l : List R) (w : World σ E R) :
    drain l w = { st := w.st, trace := w.trace ++ l.map Event.logPrintf } := by
  induction l generalizing w with
  | nil => simp [drain]
  | cons a rest ih => simp [drain, ih]

theorem zipWith_imageName_not_afterGuard {E R : Type} (ds : List Deployment)
    (errs : List (Option E)) :
    ∀ ev ∈ List.zipWith (Event.imageName (R := R)) ds errs, ev.afterGuard = false := by
  induction ds generalizing errs with
  | nil => simp
  | cons d rest ih =>
    cases errs with
    | nil => simp
    | cons e es =>
      intro ev hev
      rcases List.mem_cons.1 hev with h | h
      · subst h; rfl
      · exact ih es ev h

/-- C5: when `config.Deployments()` succeeds and `rc.ImageName` fails for at least
one intended deployment, `Resolve` returns the aggregate
`MissingImageNamesError` (with a non-empty list of causes), and the calls of the
pass are the call to `Deployments` followed by one `ImageName` call per intended
deployment: the live-state fetch, `Diff` and `Rectify` are not invoked and
nothing is logged, and the outside state is the one left by the last
`ImageName` call. -/
theorem Resolve_guard_short_circuit {σ E R : Type} (sidEqual : SourceID → SourceID → Bool)
    (dcEqual : DeployConfig → DeployConfig → Bool) (c : Collaborators σ E R)
    (w : World σ E R) (gdm : Deployments) (s1 : σ)
    (hdep : c.Deployments w.st = (Except.ok gdm, s1))
    (hfail : ∃ e, some e ∈ imageNameErrors c gdm s1) :
    (Resolve sidEqual dcEqual c w).1 = some (ResolveError.missingImageNames
        { Causes := (imageNameErrors c gdm s1).reduceOption }) ∧
      (imageNameErrors c gdm s1).reduceOption ≠ [] ∧
      (Resolve sidEqual dcEqual c w).2.trace =
        w.trace ++ Event.deployments (Except.ok gdm) ::
          List.zipWith Event.imageName gdm (imageNameErrors c gdm s1) ∧
      (∀ ev ∈ (Resolve sidEqual dcEqual c w).2.trace.drop w.trace.length,
        ev.afterGuard = false) ∧
      (Resolve sidEqual dcEqual c w).2.st = imageNameState c gdm s1 := by
  have hne : (imageNameErrors c gdm s1).reduceOption ≠ [] := by
    intro h
    obtain ⟨e, he⟩ := hfail
    have := (reduceOption_eq_nil_iff _).1 h _ he
    cases this
  have hlen : 0 < (imageNameErrors c gdm s1).reduceOption.length :=
    List.length_pos.2 hne
  have hres : Resolve sidEqual dcEqual c w =
      (some (ResolveError.missingImageNames
        { Causes := (imageNameErrors c gdm s1).reduceOption }),
       { st := imageNameState c gdm s1,
         trace := w.trace ++ Event.deployments (Except.ok gdm) ::
           List.zipWith Event.imageName gdm (imageNameErrors c gdm s1) }) := by
    simp only [Resolve, callDeployments, hdep, guardImageNamesKnown_eq, hlen, if_true,
      List.append_assoc, List.singleton_append]
  rw [hres]
  refine ⟨rfl, hne, rfl, ?_, rfl⟩
  simp only [List.drop_left]
  intro ev hev
  rcases List.mem_cons.1 hev with h | h
  · subst h; rfl
  · exact zipWith_imageName_not_afterGuard _ _ ev h

/-- Witness of C5: in the sample pass the client knows no image for "one"; the
pass returns the aggregate error with that single cause. -/
theorem Resolve_guard_short_circuit_witness :
    (Resolve SourceID.Equal DeployConfig.Equal sampleCollaborators
        { st := 0, trace := [] }).1 =
      some (ResolveError.missingImageNames { Causes := ["no image for one"] }) :=
  (Resolve_guard_short_circuit SourceID.Equal DeployConfig.Equal sampleCollaborators
    { st := 0, trace := [] } [makeDepl "one" 1, makeDepl "two" 1] 1 rfl
    ⟨"no image for one", by decide⟩).1

theorem imageNameErrors_congr {σ E R : Type} (c k : Collaborators σ E R)
    (h : k.ImageName = c.ImageName) (gdm : List Deployment) (s : σ) :
    imageNameErrors k gdm s = imageNameErrors c gdm s := by
  induction gdm generalizing s with
  | nil => rfl
  | cons d rest ih => simp [imageNameErrors, h, ih]

theorem imageNameState_congr {σ E R : Type} (c k : Collaborators σ E R)
    (h : k.ImageName = c.ImageName) (gdm : List Deployment) (s : σ) :
    imageNameState k gdm s = imageNameState c gdm s := by
  induction gdm generalizing s with
  | nil => rfl
  | cons d rest ih => simp [imageNameState, h, ih]

/-- C6: `Resolve` returns a non-nil error exactly when one of its first three
steps fails, and then that step's error: the error returned by
`config.Deployments()`; else, when some `rc.ImageName` call fails, the aggregate
of the guard; else the error returned by `GetRunningDeploymentSet`, called on
`config.BaseURLs()` in the state left by the guard. When the three succeed it
returns nil whatever `Rectify` does and whatever errors it delivers. -/
theorem Resolve_error_only_from_first_three_steps {σ E R : Type}
    (sidEqual : SourceID → SourceID → Bool)
    (dcEqual : DeployConfig → DeployConfig → Bool) (c : Collaborators σ E R)
    (w : World σ E R) :
    (match c.Deployments w.st with
      | (Except.error err, _) =>
        (Resolve sidEqual dcEqual c w).1 = some (ResolveError.collaborator err)
      | (Except.ok gdm, s1) =>
        match (imageNameErrors c gdm s1).reduceOption with
        | e :: es =>
          (Resolve sidEqual dcEqual c w).1 =
            some (ResolveError.missingImageNames { Causes := e :: es })
        | [] =>
          match c.GetRunningDeploymentSet (c.BaseURLs (imageNameState c gdm s1))
              (imageNameState c gdm s1) with
          | (Except.error err, _) =>
            (Resolve sidEqual dcEqual c w).1 = some (ResolveError.collaborator err)
          | (Except.ok _, _) =>
            ∀ rectify : DiffResult → σ → List R × σ,
              (Resolve sidEqual dcEqual { c with Rectify := rectify } w).1 = none) ∧
      ((Resolve sidEqual dcEqual c w).1 = none ↔
        ∃ gdm s1 ads s3, c.Deployments w.st = (Except.ok gdm, s1) ∧
          (∀ x ∈ imageNameErrors c gdm s1, x = none) ∧
          c.GetRunningDeploymentSet (c.BaseURLs (imageNameState c gdm s1))
            (imageNameState c gdm s1) = (Except.ok ads, s3)) := by
  rcases h1 : c.Deployments w.st with ⟨_ | gdm, s1⟩
  · simp [Resolve, callDeployments, h1]
  · cases h2 : (imageNameErrors c gdm s1).reduceOption with
    | cons e es =>
      have hne : ¬ ∀ x ∈ imageNameErrors c gdm s1, x = none := by
        rw [← reduceOption_eq_nil_iff, h2]
        simp
      simp [Resolve, callDeployments, h1, guardImageNamesKnown_eq, h2, hne]
    | nil =>
      have hall : ∀ x ∈ imageNameErrors c gdm s1, x = none :=
        (reduceOption_eq_nil_iff _).1 h2
      rcases h3 : c.GetRunningDeploymentSet (c.BaseURLs (imageNameState c gdm s1))
          (imageNameState c gdm s1) with ⟨_ | ads, s3⟩
      · simp [Resolve, callDeployments, callGetRunningDeploymentSet, h1,
          guardImageNamesKnown_eq, h2, h3]
      · simp only [h2, h3]
        refine ⟨?_, ?_⟩
        · intro rectify
          have e1 : imageNameErrors { c with Rectify := rectify } gdm s1 =
              imageNameErrors c gdm s1 :=
            imageNameErrors_congr c { c with Rectify := rectify } rfl gdm s1
          have e2 : imageNameState { c with Rectify := rectify } gdm s1 =
              imageNameState c gdm s1 :=
            imageNameState_congr c { c with Rectify := rectify } rfl gdm s1
          simp [Resolve, callDeployments, callGetRunningDeploymentSet, h1,
            guardImageNamesKnown_eq, e1, e2, h2, h3]
        · simp only [Resolve, callDeployments, callGetRunningDeploymentSet, h1,
            guardImageNamesKnown_eq, h2, h3, List.length_nil, gt_iff_lt, Nat.lt_irrefl,
            if_false, true_iff]
          exact ⟨gdm, s1, ads, s3, rfl, hall, h3⟩

/-! ## The differ -/

theorem Has_eq_true_iff (ds : Deployments) (id : DeployID) :
    ds.Has id = true ↔ id ∈ ds.Keys := by
  simp [Deployments.Has, Deployments.Get, Deployments.Keys]

theorem Get_eq_none_iff (ds : Deployments) (id : DeployID) :
    ds.Get id = none ↔ id ∉ ds.Keys := by
  simp [Deployments.Get, Deployments.Keys]

theorem Get_some_mem (ds : Deployments) (id : DeployID) (o : Deployment)
    (h : ds.Get id = some o) : o ∈ ds ∧ o.ID = id := by
  unfold Deployments.Get at h
  exact ⟨List.mem_of_find?_eq_some h, by simpa using List.find?_some h⟩

theorem Get_eq_some_of_mem (ds : Deployments) (h : ds.WellKeyed) (o : Deployment)
    (ho : o ∈ ds) : ds.Get o.ID = some o := by
  induction ds with
  | nil => cases ho
  | cons d rest ih =>
    have hn : d.ID ∉ Deployments.Keys rest ∧ (Deployments.Keys rest).Nodup := by
      simpa [Deployments.WellKeyed, Deployments.Keys] using h
    rcases List.mem_cons.1 ho with rfl | hr
    · simp [Deployments.Get]
    · have hne : d.ID ≠ o.ID := by
        intro he
        apply hn.1
        rw [he]
        exact List.mem_map_of_mem _ hr
      have := ih hn.2 hr
      simpa [Deployments.Get, hne] using this

theorem ID_injOn_of_WellKeyed (ds : Deployments) (h : ds.WellKeyed) (x y : Deployment)
    (hx : x ∈ ds) (hy : y ∈ ds) (hxy : x.ID = y.ID) : x = y := by
  have h1 := Get_eq_some_of_mem ds h x hx
  have h2 := Get_eq_some_of_mem ds h y hy
  rw [hxy, h2] at h1
  exact (Option.some.inj h1).symm

theorem mem_Gone_iff (sidEqual : SourceID → SourceID → Bool)
    (dcEqual : DeployConfig → DeployConfig → Bool) (a b : Deployments) (d : Deployment) :
    d ∈ (Diff sidEqual dcEqual a b).Gone ↔ d ∈ a ∧ d.ID ∉ b.Keys := by
  simp only [Diff, List.mem_filter, Bool.not_eq_true', ← Has_eq_true_iff]
  simp

theorem mem_New_iff (sidEqual : SourceID → SourceID → Bool)
    (dcEqual : DeployConfig → DeployConfig → Bool) (a b : Deployments) (d : Deployment) :
    d ∈ (Diff sidEqual dcEqual a b).New ↔ d ∈ b ∧ d.ID ∉ a.Keys := by
  simp only [Diff, List.mem_filter, Bool.not_eq_true', ← Has_eq_true_iff]
  simp

theorem mem_Same_iff (sidEqual : SourceID → SourceID → Bool)
    (dcEqual : DeployConfig → DeployConfig → Bool) (a b : Deployments) (d : Deployment) :
    d ∈ (Diff sidEqual dcEqual a b).Same ↔
      d ∈ a ∧ ∃ o, b.Get d.ID = some o ∧ d.Equal sidEqual dcEqual o = true := by
  simp only [Diff, List.mem_filter]
  cases h : b.Get d.ID <;> simp

theorem mem_Changed_iff (sidEqual : SourceID → SourceID → Bool)
    (dcEqual : DeployConfig → DeployConfig → Bool) (a b : Deployments) (p : DeploymentPair) :
    p ∈ (Diff sidEqual dcEqual a b).Changed ↔
      p.Prior ∈ a ∧ b.Get p.Prior.ID = some p.Post ∧ p.name = p.Prior.ID ∧
        p.Prior.Equal sidEqual dcEqual p.Post = false := by
  simp only [Diff, List.mem_filterMap]
  constructor
  · rintro ⟨d, hd, hp⟩
    cases h : b.Get d.ID with
    | none => simp [h] at hp
    | some o =>
      cases he : d.Equal sidEqual dcEqual o with
      | true => simp [h, he] at hp
      | false =>
        simp only [h, he, Bool.false_eq_true, if_false, Option.some.injEq] at hp
        subst hp
        exact ⟨hd, h, rfl, he⟩
  · rintro ⟨hd, hg, hn, he⟩
    refine ⟨p.Prior, hd, ?_⟩
    simp only [hg, he, Bool.false_eq_true, if_false, Option.some.injEq]
    cases p
    simp_all

theorem filterMap_names_sublist (f : Deployment → Option DeploymentPair)
    (hf : ∀ d p, f d = some p → p.name = d.ID) (a : List Deployment) :
    ((a.filterMap f).map DeploymentPair.name).Sublist (a.map Deployment.ID) := by
  induction a with
  | nil => simp
  | cons d rest ih =>
    cases h : f d with
    | none =>
      rw [List.filterMap_cons_none h]
      exact List.Sublist.cons _ ih
    | some p =>
      rw [List.filterMap_cons_some h, List.map_cons, List.map_cons, hf d p h]
      exact List.Sublist.cons₂ _ ih

theorem Changed_names_sublist (sidEqual : SourceID → SourceID → Bool)
    (dcEqual : DeployConfig → DeployConfig → Bool) (a b : Deployments) :
    ((Diff sidEqual dcEqual a b).Changed.map DeploymentPair.name).Sublist a.Keys := by
  apply filterMap_names_sublist
  intro d p h
  cases hg : b.Get d.ID with
  | none => simp [hg] at h
  | some o =>
    cases he : d.Equal sidEqual dcEqual o with
    | true => simp [hg, he] at h
    | false =>
      simp only [hg, he, Bool.false_eq_true, if_false, Option.some.injEq] at h
      subst h
      rfl

/-- The expectations of `TestRealDiff`: "one" is gone, "two" is the same,
"three" is changed with `Prior.NumInstances = 2` and `Post.NumInstances = 1`, and
"four" is new. -/
theorem Diff_TestRealDiff :
    Diff SourceID.Equal DeployConfig.Equal realDiffReceiver realDiffArgument =
      { New := [makeDepl "four" 1],
        Gone := [makeDepl "one" 1],
        Same := [makeDepl "two" 1],
        Changed := [{ name := (makeDepl "three" 2).ID, Prior := makeDepl "three" 2,
                      Post := makeDepl "three" 1 }] } := by
  decide

/-- C7: for collections `a` (existing) and `b` (intended) with unique keys, the
diff `a.Diff(b)` has: in `Gone` the deployments of `a` whose DeployID is not in
`b`; in `New` those of `b` whose DeployID is not in `a`; in `Same` the
deployments of `a` whose DeployID is in `b` and that are `Equal` to `b`'s
deployment; in `Changed` exactly the pairs whose `Prior` is in `a`, whose `Post`
is in `b`, whose `name` is the DeployID of both, and that are not `Equal`, with
no DeployID named twice. -/
theorem Diff_buckets (sidEqual : SourceID → SourceID → Bool)
    (dcEqual : DeployConfig → DeployConfig → Bool) (a b : Deployments)
    (ha : a.WellKeyed) (hb : b.WellKeyed) :
    (∀ d, d ∈ (Diff sidEqual dcEqual a b).Gone ↔ d ∈ a ∧ d.ID ∉ b.Keys) ∧
      (∀ d, d ∈ (Diff sidEqual dcEqual a b).New ↔ d ∈ b ∧ d.ID ∉ a.Keys) ∧
      (∀ d, d ∈ (Diff sidEqual dcEqual a b).Same ↔
        d ∈ a ∧ ∃ o ∈ b, o.ID = d.ID ∧ d.Equal sidEqual dcEqual o = true) ∧
      (∀ p, p ∈ (Diff sidEqual dcEqual a b).Changed ↔
        p.Prior ∈ a ∧ p.Post ∈ b ∧ p.name = p.Prior.ID ∧ p.name = p.Post.ID ∧
          p.Prior.Equal sidEqual dcEqual p.Post = false) ∧
      ((Diff sidEqual dcEqual a b).Changed.map DeploymentPair.name).Nodup := by
  refine ⟨mem_Gone_iff _ _ a b, mem_New_iff _ _ a b, ?_, ?_, ?_⟩
  · intro d
    rw [mem_Same_iff]
    constructor
    · rintro ⟨hd, o, ho, he⟩
      exact ⟨hd, o, (Get_some_mem b _ o ho).1, (Get_some_mem b _ o ho).2, he⟩
    · rintro ⟨hd, o, ho, hid, he⟩
      refine ⟨hd, o, ?_, he⟩
      rw [← hid]
      exact Get_eq_some_of_mem b hb o ho
  · intro p
    rw [mem_Changed_iff]
    constructor
    · rintro ⟨hd, hg, hn, he⟩
      have := Get_some_mem b _ _ hg
      exact ⟨hd, this.1, hn, by rw [hn, this.2], he⟩
    · rintro ⟨hd, ho, hn, hn2, he⟩
      refine ⟨hd, ?_, hn, he⟩
      rw [← hn, hn2]
      exact Get_eq_some_of_mem b hb _ ho
  · exact List.Nodup.sublist (Changed_names_sublist _ _ a b) ha

/-- Witness of C7: the collections of `TestRealDiff`; the deployment of
repository "one", present in the receiver only, is in `Gone`. -/
theorem Diff_buckets_witness :
    makeDepl "one" 1 ∈
      (Diff SourceID.Equal DeployConfig.Equal realDiffReceiver realDiffArgument).Gone :=
  ((Diff_buckets SourceID.Equal DeployConfig.Equal realDiffReceiver realDiffArgument
    (by decide) (by decide)).1 (makeDepl "one" 1)).2 ⟨by decide, by decide⟩

theorem mem_New_Keys_iff (sidEqual : SourceID → SourceID → Bool)
    (dcEqual : DeployConfig → DeployConfig → Bool) (a b : Deployments) (k : DeployID) :
    k ∈ (Diff sidEqual dcEqual a b).New.Keys ↔ k ∈ b.Keys ∧ k ∉ a.Keys := by
  simp only [Deployments.Keys, List.mem_map]
  constructor
  · rintro ⟨d, hd, rfl⟩
    have := (mem_New_iff sidEqual dcEqual a b d).1 hd
    exact ⟨⟨d, this.1, rfl⟩, by simpa [Deployments.Keys] using this.2⟩
  · rintro ⟨⟨d, hd, rfl⟩, hn⟩
    exact ⟨d, (mem_New_iff sidEqual dcEqual a b d).2
      ⟨hd, by simpa [Deployments.Keys] using hn⟩, rfl⟩

theorem mem_Gone_Keys_iff (sidEqual : SourceID → SourceID → Bool)
    (dcEqual : DeployConfig → DeployConfig → Bool) (a b : Deployments) (k : DeployID) :
    k ∈ (Diff sidEqual dcEqual a b).Gone.Keys ↔ k ∈ a.Keys ∧ k ∉ b.Keys := by
  simp only [Deployments.Keys, List.mem_map]
  constructor
  · rintro ⟨d, hd, rfl⟩
    have := (mem_Gone_iff sidEqual dcEqual a b d).1 hd
    exact ⟨⟨d, this.1, rfl⟩, by simpa [Deployments.Keys] using this.2⟩
  · rintro ⟨⟨d, hd, rfl⟩, hn⟩
    exact ⟨d, (mem_Gone_iff sidEqual dcEqual a b d).2
      ⟨hd, by simpa [Deployments.Keys] using hn⟩, rfl⟩

theorem mem_Same_Keys_iff (sidEqual : SourceID → SourceID → Bool)
    (dcEqual : DeployConfig → DeployConfig → Bool) (a b : Deployments) (k : DeployID) :
    k ∈ (Diff sidEqual dcEqual a b).Same.Keys ↔
      ∃ d ∈ a, d.ID = k ∧ ∃ o, b.Get k = some o ∧ d.Equal sidEqual dcEqual o = true := by
  simp only [Deployments.Keys, List.mem_map]
  constructor
  · rintro ⟨d, hd, rfl⟩
    have := (mem_Same_iff sidEqual dcEqual a b d).1 hd
    exact ⟨d, this.1, rfl, this.2⟩
  · rintro ⟨d, hd, rfl, h⟩
    exact ⟨d, (mem_Same_iff sidEqual dcEqual a b d).2 ⟨hd, h⟩, rfl⟩

theorem mem_Changed_names_iff (sidEqual : SourceID → SourceID → Bool)
    (dcEqual : DeployConfig → DeployConfig → Bool) (a b : Deployments) (k : DeployID) :
    k ∈ (Diff sidEqual dcEqual a b).Changed.map DeploymentPair.name ↔
      ∃ d ∈ a, d.ID = k ∧ ∃ o, b.Get k = some o ∧ d.Equal sidEqual dcEqual o = false := by
  simp only [List.mem_map]
  constructor
  · rintro ⟨p, hp, rfl⟩
    obtain ⟨hd, hg, hn, he⟩ := (mem_Changed_iff sidEqual dcEqual a b p).1 hp
    exact ⟨p.Prior, hd, hn.symm, p.Post, by rw [hn]; exact hg, he⟩
  · rintro ⟨d, hd, rfl, o, hg, he⟩
    exact ⟨{ name := d.ID, Prior := d, Post := o },
      (mem_Changed_iff sidEqual dcEqual a b _).2 ⟨hd, hg, rfl, he⟩, rfl⟩

theorem Diff_Keys_mem_iff (sidEqual : SourceID → SourceID → Bool)
    (dcEqual : DeployConfig → DeployConfig → Bool) (a b : Deployments) (k : DeployID) :
    k ∈ (Diff sidEqual dcEqual a b).Keys ↔ k ∈ a.Keys ∨ k ∈ b.Keys := by
  simp only [DiffResult.Keys, List.mem_append, mem_New_Keys_iff, mem_Gone_Keys_iff,
    mem_Same_Keys_iff, mem_Changed_names_iff]
  constructor
  · rintro (((h | h) | ⟨d, hd, rfl, -⟩) | ⟨d, hd, rfl, -⟩)
    · exact Or.inr h.1
    · exact Or.inl h.1
    · exact Or.inl (List.mem_map_of_mem _ hd)
    · exact Or.inl (List.mem_map_of_mem _ hd)
  · intro h
    by_cases hka : k ∈ a.Keys
    · obtain ⟨d, hd, rfl⟩ := List.mem_map.1 hka
      cases hg : b.Get d.ID with
      | none => exact Or.inl (Or.inl (Or.inr ⟨hka, (Get_eq_none_iff b _).1 hg⟩))
      | some o =>
        cases he : d.Equal sidEqual dcEqual o with
        | true => exact Or.inl (Or.inr ⟨d, hd, rfl, o, rfl, he⟩)
        | false => exact Or.inr ⟨d, hd, rfl, o, rfl, he⟩
    · rcases h with h | h
      · exact absurd h hka
      · exact Or.inl (Or.inl (Or.inl ⟨h, hka⟩))

theorem Diff_disjoint (sidEqual : SourceID → SourceID → Bool)
    (dcEqual : DeployConfig → DeployConfig → Bool) (a b : Deployments) (ha : a.WellKeyed) :
    List.Disjoint (Diff sidEqual dcEqual a b).New.Keys (Diff sidEqual dcEqual a b).Gone.Keys ∧
      List.Disjoint (Diff sidEqual dcEqual a b).New.Keys
        (Diff sidEqual dcEqual a b).Same.Keys ∧
      List.Disjoint (Diff sidEqual dcEqual a b).New.Keys
        ((Diff sidEqual dcEqual a b).Changed.map DeploymentPair.name) ∧
      List.Disjoint (Diff sidEqual dcEqual a b).Gone.Keys
        (Diff sidEqual dcEqual a b).Same.Keys ∧
      List.Disjoint (Diff sidEqual dcEqual a b).Gone.Keys
        ((Diff sidEqual dcEqual a b).Changed.map DeploymentPair.name) ∧
      List.Disjoint (Diff sidEqual dcEqual a b).Same.Keys
        ((Diff sidEqual dcEqual a b).Changed.map DeploymentPair.name) := by
  refine ⟨?_, ?_, ?_, ?_, ?_, ?_⟩ <;> intro k h1 h2
  · exact ((mem_New_Keys_iff _ _ a b k).1 h1).2 ((mem_Gone_Keys_iff _ _ a b k).1 h2).1
  · obtain ⟨d, hd, rfl, -⟩ := (mem_Same_Keys_iff _ _ a b k).1 h2
    exact ((mem_New_Keys_iff _ _ a b _).1 h1).2 (List.mem_map_of_mem _ hd)
  · obtain ⟨d, hd, rfl, -⟩ := (mem_Changed_names_iff _ _ a b k).1 h2
    exact ((mem_New_Keys_iff _ _ a b _).1 h1).2 (List.mem_map_of_mem _ hd)
  · obtain ⟨d, hd, rfl, o, hg, -⟩ := (mem_Same_Keys_iff _ _ a b k).1 h2
    have := (Get_eq_none_iff b d.ID).2 ((mem_Gone_Keys_iff _ _ a b _).1 h1).2
    rw [hg] at this
    cases this
  · obtain ⟨d, hd, rfl, o, hg, -⟩ := (mem_Changed_names_iff _ _ a b k).1 h2
    have := (Get_eq_none_iff b d.ID).2 ((mem_Gone_Keys_iff _ _ a b _).1 h1).2
    rw [hg] at this
    cases this
  · obtain ⟨d, hd, rfl, o, hg, he⟩ := (mem_Same_Keys_iff _ _ a b k).1 h1
    obtain ⟨x, hx, hid, y, hg2, he2⟩ := (mem_Changed_names_iff _ _ a b _).1 h2
    have hxd : x = d := ID_injOn_of_WellKeyed a ha x d hx hd hid
    subst hxd
    rw [hg] at hg2
    cases hg2
    rw [he] at he2
    cases he2

theorem Diff_Keys_nodup (sidEqual : SourceID → SourceID → Bool)
    (dcEqual : DeployConfig → DeployConfig → Bool) (a b : Deployments)
    (ha : a.WellKeyed) (hb : b.WellKeyed) : (Diff sidEqual dcEqual a b).Keys.Nodup := by
  obtain ⟨d1, d2, d3, d4, d5, d6⟩ := Diff_disjoint sidEqual dcEqual a b ha
  have nN : (Diff sidEqual dcEqual a b).New.Keys.Nodup :=
    List.Nodup.sublist (List.Sublist.map _ (List.filter_sublist _)) hb
  have nG : (Diff sidEqual dcEqual a b).Gone.Keys.Nodup :=
    List.Nodup.sublist (List.Sublist.map _ (List.filter_sublist _)) ha
  have nS : (Diff sidEqual dcEqual a b).Same.Keys.Nodup :=
    List.Nodup.sublist (List.Sublist.map _ (List.filter_sublist _)) ha
  have nC : ((Diff sidEqual dcEqual a b).Changed.map DeploymentPair.name).Nodup :=
    List.Nodup.sublist (Changed_names_sublist _ _ a b) ha
  unfold DiffResult.Keys
  refine List.nodup_append.2 ⟨List.nodup_append.2 ⟨List.nodup_append.2 ⟨nN, nG, d1⟩, nS, ?_⟩,
    nC, ?_⟩
  · intro k hk
    rcases List.mem_append.1 hk with h | h
    · exact d2 h
    · exact d4 h
  · intro k hk
    rcases List.mem_append.1 hk with h | h
    · rcases List.mem_append.1 h with h | h
      · exact d3 h
      · exact d5 h
    · exact d6 h

/-- C2: `Deployment.Equal` never reads `Annotation`: replacing the annotations of
both deployments by any values leaves the result unchanged; when
`SourceID.Equal` and `DeployConfig.Equal` are reflexive, two deployments that
differ only in their annotation are `Equal`; and then, in the diff of two
collections with unique keys that hold them, the existing one is in `Same` and
no entry of `Changed` bears their DeployID. -/
theorem Equal_Annotation_independent (sidEqual : SourceID → SourceID → Bool)
    (dcEqual : DeployConfig → DeployConfig → Bool) (d o : Deployment)
    (a b : Annotation) :
    ({ d with Annotation := a } : Deployment).Equal sidEqual dcEqual
        { o with Annotation := b } = d.Equal sidEqual dcEqual o ∧
      ((∀ x, sidEqual x x = true) → (∀ x, dcEqual x x = true) →
        ({ d with Annotation := a } : Deployment).Equal sidEqual dcEqual
          { d with Annotation := b } = true) ∧
      ((∀ x, sidEqual x x = true) → (∀ x, dcEqual x x = true) →
        ∀ existing intended : Deployments, existing.WellKeyed → intended.WellKeyed →
          ({ d with Annotation := a } : Deployment) ∈ existing →
          ({ d with Annotation := b } : Deployment) ∈ intended →
          ({ d with Annotation := a } : Deployment) ∈
              (Diff sidEqual dcEqual existing intended).Same ∧
            ∀ p ∈ (Diff sidEqual dcEqual existing intended).Changed, p.name ≠ d.ID) := by
  have heq : (∀ x, sidEqual x x = true) → (∀ x, dcEqual x x = true) →
      ({ d with Annotation := a } : Deployment).Equal sidEqual dcEqual
        { d with Annotation := b } = true := by
    intro hs hd
    rw [Equal_iff]
    exact ⟨rfl, hs _, rfl, rfl, fun _ hx => hx, hd _⟩
  refine ⟨rfl, heq, fun hs hd existing intended he hi hde hdi => ?_⟩
  have hget : intended.Get ({ d with Annotation := a } : Deployment).ID =
      some { d with Annotation := b } :=
    Get_eq_some_of_mem intended hi _ hdi
  refine ⟨(mem_Same_iff _ _ _ _ _).2 ⟨hde, _, hget, heq hs hd⟩, ?_⟩
  intro p hp hname
  obtain ⟨hpa, hpg, hpn, hpe⟩ := (mem_Changed_iff _ _ _ _ _).1 hp
  have hprior : p.Prior = { d with Annotation := a } :=
    ID_injOn_of_WellKeyed existing he _ _ hpa hde (by rw [← hpn, hname]; rfl)
  rw [hprior, hget] at hpg
  rw [hprior, ← Option.some.inj hpg, heq hs hd] at hpe
  cases hpe

/-- Witness of C2: the deployment `makeDepl "two" 1` with request ids "a" and
"b", under the structural `SourceID.Equal` and `DeployConfig.Equal`. -/
theorem Equal_Annotation_independent_witness :
    ({ makeDepl "two" 1 with Annotation := { RequestID := "a" } } : Deployment).Equal
      SourceID.Equal DeployConfig.Equal
      { makeDepl "two" 1 with Annotation := { RequestID := "b" } } = true :=
  (Equal_Annotation_independent SourceID.Equal DeployConfig.Equal (makeDepl "two" 1)
    (makeDepl "two" 1) { RequestID := "a" } { RequestID := "b" }).2.1
    (fun x => by simp [SourceID.Equal]) DeployConfig.Equal_refl

/-- C8: for collections with unique keys, a DeployID is in some bucket of their
diff exactly when it is a key of one of the two collections, and then it occurs
exactly once over the four buckets; the buckets are pairwise disjoint; the four
sizes add up to the size of the union of the two key sets; and the diff of two
empty collections has four empty buckets. -/
theorem Diff_partition (sidEqual : SourceID → SourceID → Bool)
    (dcEqual : DeployConfig → DeployConfig → Bool) (a b : Deployments)
    (ha : a.WellKeyed) (hb : b.WellKeyed) :
    (∀ k, k ∈ (Diff sidEqual dcEqual a b).Keys ↔ k ∈ a.Keys ∨ k ∈ b.Keys) ∧
      (∀ k, k ∈ a.Keys ∨ k ∈ b.Keys →
        (Diff sidEqual dcEqual a b).New.Keys.count k +
          (Diff sidEqual dcEqual a b).Gone.Keys.count k +
          (Diff sidEqual dcEqual a b).Same.Keys.count k +
          ((Diff sidEqual dcEqual a b).Changed.map DeploymentPair.name).count k = 1) ∧
      (List.Disjoint (Diff sidEqual dcEqual a b).New.Keys
          (Diff sidEqual dcEqual a b).Gone.Keys ∧
        List.Disjoint (Diff sidEqual dcEqual a b).New.Keys
          (Diff sidEqual dcEqual a b).Same.Keys ∧
        List.Disjoint (Diff sidEqual dcEqual a b).New.Keys
          ((Diff sidEqual dcEqual a b).Changed.map DeploymentPair.name) ∧
        List.Disjoint (Diff sidEqual dcEqual a b).Gone.Keys
          (Diff sidEqual dcEqual a b).Same.Keys ∧
        List.Disjoint (Diff sidEqual dcEqual a b).Gone.Keys
          ((Diff sidEqual dcEqual a b).Changed.map DeploymentPair.name) ∧
        List.Disjoint (Diff sidEqual dcEqual a b).Same.Keys
          ((Diff sidEqual dcEqual a b).Changed.map DeploymentPair.name)) ∧
      (Diff sidEqual dcEqual a b).New.length + (Diff sidEqual dcEqual a b).Gone.length +
          (Diff sidEqual dcEqual a b).Same.length +
          (Diff sidEqual dcEqual a b).Changed.length =
        (a.Keys.toFinset ∪ b.Keys.toFinset).card ∧
      Diff sidEqual dcEqual [] [] = { New := [], Gone := [], Same := [], Changed := [] } := by
  have hnd := Diff_Keys_nodup sidEqual dcEqual a b ha hb
  have hmem := Diff_Keys_mem_iff sidEqual dcEqual a b
  refine ⟨hmem, ?_, Diff_disjoint sidEqual dcEqual a b ha, ?_, rfl⟩
  · intro k hk
    have h1 := List.count_eq_one_of_mem hnd ((hmem k).2 hk)
    simpa [DiffResult.Keys, List.count_append, Nat.add_assoc] using h1
  · have hset : (Diff sidEqual dcEqual a b).Keys.toFinset =
        a.Keys.toFinset ∪ b.Keys.toFinset := by
      ext k
      simp only [List.mem_toFinset, Finset.mem_union]
      exact hmem k
    rw [← hset, List.toFinset_card_of_nodup hnd]
    simp [DiffResult.Keys, Deployments.Keys, Nat.add_assoc]

/-- Witness of C8: the collections of `TestRealDiff`; the four buckets hold one
deployment each, and the two key sets have four keys together. -/
theorem Diff_partition_witness :
    (Diff SourceID.Equal DeployConfig.Equal realDiffReceiver realDiffArgument).New.length +
        (Diff SourceID.Equal DeployConfig.Equal realDiffReceiver realDiffArgument).Gone.length +
        (Diff SourceID.Equal DeployConfig.Equal realDiffReceiver realDiffArgument).Same.length +
        (Diff SourceID.Equal DeployConfig.Equal realDiffReceiver
          realDiffArgument).Changed.length =
      (realDiffReceiver.Keys.toFinset ∪ realDiffArgument.Keys.toFinset).card :=
  (Diff_partition SourceID.Equal DeployConfig.Equal realDiffReceiver realDiffArgument
    (by decide) (by decide)).2.2.2.1

/-! ## The HTTP state manager -/

theorem jsonJoin_ne_empty (closing : String) (items : List String) :
    jsonJoin "\x7b" closing items ≠ "" := by
  intro h
  have h1 := congrArg String.length h
  simp only [jsonJoin, String.length_append] at h1
  have h2 : "\x7b".length = 1 := by decide
  have h3 : "".length = 0 := rfl
  omega

theorem Manifest.serialize_ne_empty (m : Manifest) : m.serialize ≠ "" :=
  jsonJoin_ne_empty _ _

theorem headerGet_singleton (key value : String) :
    headerGet [(key, value)] key = value := by
  simp [headerGet, List.find?]

/-- C9: `del` and `modify` first send a GET with an empty body; when the store
answers it with a 2xx status they send exactly one more request, whose
`If-Match` header is the `Etag` header of that answer: a DELETE with an empty
body for `del`, a PUT whose body is the serialized `Post` manifest, which is
not empty, for `modify`; when the GET is not answered with 2xx they send
nothing more and report the failed read. `create` sends a single PUT with
`If-None-Match: *` and a non-empty body, the serialized manifest. -/
theorem stateManager_requests {σ : Type} (hsm : HTTPStateManager σ) (m : Manifest)
    (mp : ManifestPair) (x : Exchange σ) :
    ((tagFetchRequest m).Method = "GET" ∧ (tagFetchRequest m).Body = "" ∧
        ((hsm.Do (tagFetchRequest m) x.st).1.success = true →
          ∃ cond, (hsm.del m x).2.sent = x.sent ++ [tagFetchRequest m, cond] ∧
            cond.Method = "DELETE" ∧ cond.Body = "" ∧
            headerGet cond.Header "If-Match" =
              headerGet (hsm.Do (tagFetchRequest m) x.st).1.Header "Etag") ∧
        ((hsm.Do (tagFetchRequest m) x.st).1.success = false →
          (hsm.del m x).2.sent = x.sent ++ [tagFetchRequest m] ∧
            (hsm.del m x).1 = some (StateManagerError.readFailed
              (hsm.Do (tagFetchRequest m) x.st).1.StatusCode))) ∧
      ((tagFetchRequest mp.Prior).Method = "GET" ∧ (tagFetchRequest mp.Prior).Body = "" ∧
        ((hsm.Do (tagFetchRequest mp.Prior) x.st).1.success = true →
          ∃ cond, (hsm.modify mp x).2.sent = x.sent ++ [tagFetchRequest mp.Prior, cond] ∧
            cond.Method = "PUT" ∧ cond.Body = mp.Post.serialize ∧ cond.Body ≠ "" ∧
            headerGet cond.Header "If-Match" =
              headerGet (hsm.Do (tagFetchRequest mp.Prior) x.st).1.Header "Etag") ∧
        ((hsm.Do (tagFetchRequest mp.Prior) x.st).1.success = false →
          (hsm.modify mp x).2.sent = x.sent ++ [tagFetchRequest mp.Prior] ∧
            (hsm.modify mp x).1 = some (StateManagerError.readFailed
              (hsm.Do (tagFetchRequest mp.Prior) x.st).1.StatusCode))) ∧
      (∃ put, (hsm.create m x).2.sent = x.sent ++ [put] ∧
        put.Method = "PUT" ∧ headerGet put.Header "If-None-Match" = "*" ∧
        put.Body = m.serialize ∧ put.Body ≠ "") := by
  refine ⟨⟨rfl, rfl, fun h => ?_, fun h => ?_⟩, ⟨rfl, rfl, fun h => ?_, fun h => ?_⟩, ?_⟩
  · refine ⟨
      { Method := "DELETE",
        Resource := m.ID,
        Header := [("If-Match", headerGet (hsm.Do (tagFetchRequest m) x.st).1.Header "Etag")],
        Body := "" },
      ?_, rfl, rfl, headerGet_singleton _ _⟩
    simp [HTTPStateManager.del, HTTPStateManager.getManifestEtag,
      HTTPStateManager.roundTrip, h]
  · simp [HTTPStateManager.del, HTTPStateManager.getManifestEtag,
      HTTPStateManager.roundTrip, h]
  · refine ⟨
      { Method := "PUT",
        Resource := mp.Post.ID,
        Header := [("If-Match",
          headerGet (hsm.Do (tagFetchRequest mp.Prior) x.st).1.Header "Etag")],
        Body := mp.Post.serialize },
      ?_, rfl, rfl, Manifest.serialize_ne_empty _, headerGet_singleton _ _⟩
    simp [HTTPStateManager.modify, HTTPStateManager.getManifestEtag,
      HTTPStateManager.roundTrip, h]
  · simp [HTTPStateManager.modify, HTTPStateManager.getManifestEtag,
      HTTPStateManager.roundTrip, h]
  · refine ⟨
      { Method := "PUT",
        Resource := m.ID,
        Header := [("If-None-Match", "*")],
        Body := m.serialize },
      ?_, rfl, headerGet_singleton _ _, rfl, Manifest.serialize_ne_empty _⟩
    simp [HTTPStateManager.create, HTTPStateManager.roundTrip]

/-- Witness of C9: the sample store, which answers the GET with status 200 and
the tag "w/sauce", and the empty manifest of the tests; `del` sends the GET and
then a DELETE with an empty body carrying `If-Match: w/sauce`. -/
theorem stateManager_requests_witness :
    ∃ cond, (sampleStateManager.del emptyManifest { st := 0, sent := [] }).2.sent =
        [] ++ [tagFetchRequest emptyManifest, cond] ∧
      cond.Method = "DELETE" ∧ cond.Body = "" ∧
      headerGet cond.Header "If-Match" =
        headerGet (sampleStateManager.Do (tagFetchRequest emptyManifest) 0).1.Header "Etag" :=
  (stateManager_requests sampleStateManager emptyManifest
    { Prior := emptyManifest, Post := emptyManifest }
    { st := 0, sent := [] }).1.2.2.1 (by decide)

end Sous
